import Mathlib

/-!
Verification of the image-form-filling pipeline (`ImageFormFiller.py`,
`app.py`, `utils.py`).

The development shallowly embeds the renderer and document emitter of
`ImageFormFiller.py`.  Python strings are Lean `String`s; the handful of
Python string primitives the source uses (`str.lower`, `str.replace` with
one-character arguments, `str.split(' ')`, `str.strip`) are given
structurally recursive models over the underlying character list so that
all theorems can be settled by kernel evaluation.  Python's floor division
`//` is `Int.fdiv`.  PIL images are modelled as a pixel function together
with a width and a height; the font-measurement calls
(`draw.textbbox(...)[2]-[0]` / `[3]-[1]`) are abstract parameters
`mw mh : String → Int`, and glyph rasterisation is an abstract parameter
of pixel application, since both live inside the PIL library, not in this
repository.
-/

/-! ## Python string primitives (ASCII model) -/

/-- Model of Python `str.lower()` (ASCII letters; the claims only involve
ASCII field names). -/
def pyLower (s : String) : String :=
  String.mk (s.data.map Char.toLower)

/-- Model of Python `str.replace(a, b)` for one-character `a` and `b`,
the only form the source uses (`replace("_", " ")`, `replace(" ", "_")`). -/
def replaceChar (a b : Char) (s : String) : String :=
  String.mk (s.data.map (fun c => if c = a then b else c))

/-- Characters stripped by Python `str.strip()` (the whitespace characters
relevant to this pipeline). -/
def isPySpace (c : Char) : Bool :=
  c == ' ' || c == '\t' || c == '\n' || c == '\r'

/-- Model of Python `str.strip()`. -/
def pyStrip (s : String) : String :=
  String.mk (((s.data.dropWhile isPySpace).reverse.dropWhile isPySpace).reverse)

/-- Helper for `pySplit`: walks the character list accumulating the current
chunk (reversed). -/
def splitCharAux (sep : Char) : List Char → List Char → List String
  | [], cur => [String.mk cur.reverse]
  | c :: rest, cur =>
    if c = sep then String.mk cur.reverse :: splitCharAux sep rest []
    else splitCharAux sep rest (c :: cur)

/-- Model of Python `str.split(sep)` for a one-character separator: every
occurrence of `sep` splits, adjacent separators yield empty chunks, and the
empty string splits to `[""]` — exactly CPython's semantics for
`text.split(' ')` as used in `_draw_text_on_image`. -/
def pySplit (sep : Char) (s : String) : List String :=
  splitCharAux sep s.data []

/-- Python `//` on ints is floor division, i.e. `Int.fdiv`. -/
def pyFloorDiv (a b : Int) : Int := Int.fdiv a b

/-! ## Data model -/

/-- One RGB pixel. -/
structure Color where
  r : Nat
  g : Nat
  b : Nat
deriving DecidableEq

/-- The fill color `(0, 0, 0)` used for all text. -/
def blackColor : Color := ⟨0, 0, 0⟩

/-- A raster image: pixel dimensions plus a (total) pixel function.  The
renderer only ever produces three-channel images (`__init__` converts the
template to RGB), so the mode is not tracked. -/
structure Img where
  width : Nat
  height : Nat
  pix : Int → Int → Color

/-- PIL `Image.copy()`: value semantics, the copy is pixel-identical. -/
def Img.copy (im : Img) : Img := im

/-- A field rectangle from the mapping JSON: `{"x":…, "y":…, "w":…, "h":…}`. -/
structure Box where
  x : Int
  y : Int
  w : Int
  h : Int
deriving DecidableEq

/-- The `mapping_data` structure: `{"image_size": [W, H], "fields": {...}}`.
`fields` is kept as an association list in iteration (insertion) order,
matching Python dict iteration. -/
structure Mapping where
  image_size : Int × Int
  fields : List (String × Box)

/-- A scalar value from a candidate-record cell, before Python `str()` is
applied to it.  The claims only exercise string and `None` cells. -/
inductive PyVal where
  | str (s : String)
  | noneV
deriving DecidableEq

/-- Python `str(value)` for the modelled value forms. -/
def pyStr : PyVal → String
  | .str s => s
  | .noneV => "None"

/-- The filesystem / image-decoding surface `fill_and_save_pdf` touches for
photos: `os.path.exists` and `Image.open(...).resize((w, h), LANCZOS)`.
`loadResized p w h = none` models any exception raised while opening or
resizing (missing file raced away, corrupt image, decode error). -/
structure FileSystem where
  pathExists : String → Bool
  loadResized : String → Int → Int → Option Img

/-! ## Field renderer (`ImageFormFiller._draw_text_on_image`) -/

/-- A drawing command issued against the filled image: either
`draw.text((dx, dy), s, font, fill)` or `filled_image.paste(photo, (x, y))`. -/
inductive DrawOp where
  | text (dx dy : Int) (s : String) (c : Color)
  | pastePhoto (photo : Img) (px py : Int)

/-- The strings drawn by a list of operations, in order. -/
def opTexts : List DrawOp → List String
  | [] => []
  | DrawOp.text _ _ s _ :: rest => s :: opTexts rest
  | DrawOp.pastePhoto _ _ _ :: rest => opTexts rest

/-- The x-coordinates of the text operations, in order. -/
def opXs : List DrawOp → List Int
  | [] => []
  | DrawOp.text dx _ _ _ :: rest => dx :: opXs rest
  | DrawOp.pastePhoto _ _ _ :: rest => opXs rest

/-- The greedy word wrap of `_draw_text_on_image` (lines 60–73 of
`ImageFormFiller.py`): split on single spaces, grow `current_line` while the
measured width of `(current_line + " " + word).strip()` stays `≤ w`,
otherwise commit `current_line` and restart from `word`; finally append the
pending line.  `mw` is the measured width `textbbox(...)[2] - [0]`. -/
def wrapStep (mw : String → Int) (w : Int) (acc : List String × String)
    (word : String) : List String × String :=
  let test := pyStrip (acc.2 ++ " " ++ word)
  if mw test ≤ w then (acc.1, test) else (acc.1 ++ [acc.2], word)

/-- The committed lines followed by the final pending line, i.e. the
`lines` list exactly as the Python loop leaves it after the trailing
`lines.append(current_line)`. -/
def wrapLines (mw : String → Int) (text : String) (w : Int) : List String :=
  let words := pySplit ' ' text
  let r := words.foldl (wrapStep mw w) (([] : List String), "")
  r.1 ++ [r.2]

/-- `_draw_text_on_image` as the list of `draw.text` operations it issues.
`mw`/`mh` are the measured width/height of a string under the loaded font.
Single-line branch: one draw at `(x + (w - tw)//2, y + (h - th)//2)`.
Wrapped branch: lines stacked from
`start_y = y + (h - len(lines)*line_height)//2` with
`line_height = mh text`, each drawn at a horizontally centered x, and only
when its bottom edge `start_y + i*lh + lh` stays `≤ y + h`. -/
def drawTextOnImage (mw mh : String → Int) (text : String) (x y w h : Int) :
    List DrawOp :=
  let tw := mw text
  let th := mh text
  let drawY := y + pyFloorDiv (h - th) 2
  if tw > w then
    let lines := wrapLines mw text w
    let lh := th
    let startY := y + pyFloorDiv (h - (lines.length : Int) * lh) 2
    (lines.enum.filter
        (fun p => decide (startY + (p.1 : Int) * lh + lh ≤ y + h))).map
      (fun p =>
        DrawOp.text (x + pyFloorDiv (w - mw p.2) 2)
          (startY + (p.1 : Int) * lh) p.2 blackColor)
  else
    [DrawOp.text (x + pyFloorDiv (w - tw) 2) drawY text blackColor]

/-! ## Field loop (`ImageFormFiller.fill_and_save_pdf`, lines 100–120) -/

/-- The key normalisation the candidate-data lookup applies to both sides:
`key.lower().replace("_", " ")` (line 114).  Note: no `strip()`. -/
def normKey (s : String) : String :=
  replaceChar '_' ' ' (pyLower s)

/-- The normalisation the specification's design note prescribes:
`normalize(name) = lower(name).replace('_',' ').trim()`.  Stated from the
spec's words, to be compared against `normKey` (which has no trim). -/
def specNormalize (s : String) : String :=
  pyStrip (replaceChar '_' ' ' (pyLower s))

/-- Lines 112–116: scan `candidate_data` in iteration order, return
`str(value)` of the first key whose normalisation matches the field name's,
else `None`. -/
def lookupValue : List (String × PyVal) → String → Option String
  | [], _ => Option.none
  | (k, v) :: rest, fieldName =>
    if normKey k = normKey fieldName then some (pyStr v)
    else lookupValue rest fieldName

/-- The guard `photo_path and os.path.exists(photo_path)` of line 103:
`photo_path` must be truthy (not `None`, not `""`) and exist. -/
def photoGuard (fs : FileSystem) (photoPath : Option String) : Bool :=
  match photoPath with
  | Option.none => false
  | some p => (p != "") && fs.pathExists p

/-- One iteration of the field loop (lines 100–120).  The photo branch
requires the *exact* lowercase name `"photo"` (no underscore
normalisation) plus the truthy-and-exists guard; any exception while
opening/resizing the photo is caught and only printed (`except` at line
108), producing no operation.  Every other case resolves a text value and,
when it is truthy (a non-empty string), draws it via
`_draw_text_on_image`. -/
def processField (mw mh : String → Int) (fs : FileSystem)
    (photoPath : Option String) (candidateData : List (String × PyVal))
    (fieldName : String) (b : Box) : List DrawOp :=
  if pyLower fieldName == "photo" && photoGuard fs photoPath then
    match photoPath with
    | some p =>
      match fs.loadResized p b.w b.h with
      | some photo => [DrawOp.pastePhoto photo b.x b.y]
      | Option.none => []
    | Option.none => []
  else
    match lookupValue candidateData fieldName with
    | some fv => if fv ≠ "" then drawTextOnImage mw mh fv b.x b.y b.w b.h else []
    | Option.none => []

/-- The whole field loop: every field of the mapping, in iteration order,
contributes its operations. -/
def renderOps (mw mh : String → Int) (fs : FileSystem) (mapping : Mapping)
    (candidateData : List (String × PyVal)) (photoPath : Option String) :
    List DrawOp :=
  mapping.fields.foldr
    (fun nb acc => processField mw mh fs photoPath candidateData nb.1 nb.2 ++ acc)
    []

/-! ## Applying drawing operations to the image -/

/-- Applies one drawing command to an image.  `tr` is the abstract glyph
rasteriser of the PIL font: `tr s c u v` is the colour (if any) that drawing
string `s` in colour `c` contributes at offset `(u, v)` from the draw
origin.  Pasting writes the photo's pixels into the rectangle with top-left
`(px, py)` and the photo's size; PIL clips at the canvas bounds, and
neither operation changes the canvas dimensions. -/
def applyOp (tr : String → Color → Int → Int → Option Color)
    (im : Img) (op : DrawOp) : Img :=
  match op with
  | DrawOp.text dx dy s c =>
    { im with pix := fun i j =>
        match tr s c (i - dx) (j - dy) with
        | some col => col
        | Option.none => im.pix i j }
  | DrawOp.pastePhoto photo px py =>
    { im with pix := fun i j =>
        if px ≤ i ∧ i < px + (photo.width : Int) ∧
            py ≤ j ∧ j < py + (photo.height : Int)
        then photo.pix (i - px) (j - py)
        else im.pix i j }

/-! ## The `ImageFormFiller` object -/

/-- `reportlab.lib.units.inch` in points. -/
def inchPts : ℚ := 72

/-- The state built by `ImageFormFiller.__init__`.  The template is stored
after RGB conversion (identity here, since templates are modelled as
three-channel already); `dpi` is hardcoded to `300`; the page size in
points is `(pixels / dpi) * inch`.  The PIL font object itself lives in
the measurement parameters `mw`/`mh`, so only its configuration is kept. -/
structure ImageFormFiller where
  template_image : Img
  mapping_data : Mapping
  output_font_path : Option String
  output_font_size : Int
  dpi : ℚ
  page_width_pts : ℚ
  page_height_pts : ℚ

/-- `ImageFormFiller.__init__(template_image, mapping_data, font_path,
font_size)` (lines 10–40). -/
def mkImageFormFiller (template : Img) (mapping : Mapping)
    (fontPath : Option String) (fontSize : Int) : ImageFormFiller :=
  { template_image := template
    mapping_data := mapping
    output_font_path := fontPath
    output_font_size := fontSize
    dpi := 300
    page_width_pts := ((template.width : ℚ) / 300) * inchPts
    page_height_pts := ((template.height : ℚ) / 300) * inchPts }

/-! ## `fill_and_save_pdf` (lines 91–142) -/

/-- Names importable at module level in `ImageFormFiller.py`: the module's
statements importing names (lines 1–7) plus the class the module defines.
`BytesIO` appears in none of them — the module never imports `io`. -/
def importedNames : List String :=
  ["os", "Image", "ImageDraw", "ImageFont", "canvas", "A4", "letter",
   "inch", "ImageReader", "black", "ImageFormFiller"]

/-- The Python builtins the module's code could fall back to.  `BytesIO`
is not a builtin: it lives in the `io` module. -/
def builtinNames : List String :=
  ["str", "print", "len", "range", "enumerate", "open", "Exception",
   "isinstance", "dict", "list", "int", "float", "bool"]

/-- Python name resolution for a global name used inside the module:
module globals (imports and definitions), then builtins. -/
def nameResolves (n : String) : Bool :=
  importedNames.contains n || builtinNames.contains n

/-- An exception the call can terminate with. -/
inductive PyErr where
  | nameError (n : String)
deriving DecidableEq

/-- Externally observable milestones of one `fill_and_save_pdf` call. -/
inductive PdfEvent where
  | renderedFields
  | savedBufferPng
  | wrotePdf (path : String)
deriving DecidableEq

/-- What one `fill_and_save_pdf` call produced: the filled raster image,
the milestones reached, and either the output path or the exception. -/
structure FillResult where
  rendered : Img
  events : List PdfEvent
  outcome : Except PyErr String

/-- Line 131: `f"{candidate_srno}_{candidate_name.replace(' ', '_')}_filled.pdf"`. -/
def outputFilename (srno name : String) : String :=
  srno ++ "_" ++ replaceChar ' ' '_' name ++ "_filled.pdf"

/-- `os.path.join` for the two-component case used at line 132. -/
def joinPath (folder file : String) : String :=
  folder ++ "/" ++ file

/-- The filled image produced by the loop of lines 95–120: a fresh copy of
the template with every field's operations folded over it. -/
def renderImage (tr : String → Color → Int → Int → Option Color)
    (mw mh : String → Int) (fs : FileSystem) (f : ImageFormFiller)
    (candidateData : List (String × PyVal)) (photoPath : Option String) :
    Img :=
  (renderOps mw mh fs f.mapping_data candidateData photoPath).foldl
    (applyOp tr) f.template_image.copy

/-- `fill_and_save_pdf(output_folder, candidate_data, candidate_srno,
candidate_name, photo_path)`.  The method mutates no attribute of `self`,
so the post-call object is returned unchanged alongside the result.  After
the field loop, line 123 evaluates the global name `BytesIO`; if it
resolved, the buffer would be saved and the single-page PDF written, but
the module never imports it, so the call raises `NameError` there, before
any file is created. -/
def fillAndSavePdf (tr : String → Color → Int → Int → Option Color)
    (mw mh : String → Int) (fs : FileSystem) (f : ImageFormFiller)
    (outputFolder : String) (candidateData : List (String × PyVal))
    (srno name : String) (photoPath : Option String) :
    ImageFormFiller × FillResult :=
  let filled := renderImage tr mw mh fs f candidateData photoPath
  if nameResolves "BytesIO" then
    let path := joinPath outputFolder (outputFilename srno name)
    (f, { rendered := filled
          events := [PdfEvent.renderedFields, PdfEvent.savedBufferPng,
                     PdfEvent.wrotePdf path]
          outcome := Except.ok path })
  else
    (f, { rendered := filled
          events := [PdfEvent.renderedFields]
          outcome := Except.error (PyErr.nameError "BytesIO") })

/-! ## Document emission geometry (lines 134–140) -/

/-- The page geometry of the emitted single-page PDF: the canvas is created
with `pagesize=(page_width_pts, page_height_pts)` and `drawImage` places
the filled image at `(0, 0)` with exactly the page's width and height. -/
structure PdfEmit where
  pageW : ℚ
  pageH : ℚ
  drawX : ℚ
  drawY : ℚ
  drawW : ℚ
  drawH : ℚ
deriving DecidableEq

/-- Lines 134–138 of `fill_and_save_pdf` as page geometry. -/
def emitPage (f : ImageFormFiller) : PdfEmit :=
  { pageW := f.page_width_pts
    pageH := f.page_height_pts
    drawX := 0
    drawY := 0
    drawW := f.page_width_pts
    drawH := f.page_height_pts }

/-! ## Concrete fixtures used by witnesses and counterexamples -/

/-- A concrete measured-width function: one unit per character (a
fixed-pitch font). -/
def mwLen (s : String) : Int := s.data.length

/-- A concrete measured-height function: every string is ten units tall. -/
def mhTen (_ : String) : Int := 10

/-- A rasteriser that contributes no pixels (text drawn fully
transparently); only used to instantiate theorems. -/
def trNone : String → Color → Int → Int → Option Color :=
  fun _ _ _ _ => Option.none

/-- A filesystem on which no path exists. -/
def emptyFs : FileSystem := ⟨fun _ => false, fun _ _ _ => Option.none⟩

/-- A filesystem on which every path exists but every open/resize fails
(corrupt photo files everywhere). -/
def failFs : FileSystem := ⟨fun _ => true, fun _ _ _ => Option.none⟩

/-- A tiny concrete template image. -/
def imgSmall : Img := ⟨2, 2, fun _ _ => ⟨255, 255, 255⟩⟩

/-- A 2480×3508 pixel template — an A4 sheet scanned at 300 DPI. -/
def imgA4Scan : Img := ⟨2480, 3508, fun _ _ => ⟨255, 255, 255⟩⟩

/-- A mapping with an empty `fields` table. -/
def emptyMapping : Mapping := ⟨(2, 2), []⟩

/-! ## Derived observations used in claim statements -/

/-- The texts drawn for one value by `_draw_text_on_image`, in order. -/
def drawnLineTexts (mw mh : String → Int) (text : String) (x y w h : Int) :
    List String :=
  opTexts (drawTextOnImage mw mh text x y w h)

/-- The drawn lines of the wrapped branch described directly by the
claim's condition: line `i` survives exactly when its bottom edge
`start_y + i*line_height + line_height` stays `≤ y + h`. -/
def drawnLinesSpec (mw mh : String → Int) (text : String) (w y h : Int) :
    List String :=
  let lines := wrapLines mw text w
  let lh := mh text
  let startY := y + pyFloorDiv (h - (lines.length : Int) * lh) 2
  (lines.enum.filter
      (fun p => decide (startY + (p.1 : Int) * lh + lh ≤ y + h))).map
    (fun p => p.2)

/-- Width soundness of a set of drawn lines: each is measured within the
box width or is a single word of the split input. -/
def wrapWidthOk (mw : String → Int) (w : Int) (words drawn : List String) :
    Prop :=
  ∀ s ∈ drawn, mw s ≤ w ∨ s ∈ words

/-- The x-coordinates of the text draws as a function of the box height. -/
def xsOfBoxHeight (mw mh : String → Int) (text : String) (x y w : Int) :
    Int → List Int :=
  fun hh => opXs (drawTextOnImage mw mh text x y w hh)

/-- The constant function on box heights returning a fixed list of
x-coordinates. -/
def constIntListFun (v : List Int) : Int → List Int := fun _ => v

/-! ## Helper lemmas -/

/-- Floor division by two: `a - 2 * (a // 2)` is `0` or `1`. -/
theorem pyFloorDiv_two_bounds (a : Int) :
    0 ≤ a - 2 * pyFloorDiv a 2 ∧ a - 2 * pyFloorDiv a 2 ≤ 1 := by
  unfold pyFloorDiv
  rw [Int.fdiv_eq_ediv a (by norm_num : (0 : Int) ≤ 2)]
  omega

/-- Neither drawing text nor pasting a photo changes the canvas width. -/
theorem applyOp_width (tr : String → Color → Int → Int → Option Color)
    (im : Img) (op : DrawOp) : (applyOp tr im op).width = im.width := by
  cases op <;> rfl

/-- Neither drawing text nor pasting a photo changes the canvas height. -/
theorem applyOp_height (tr : String → Color → Int → Int → Option Color)
    (im : Img) (op : DrawOp) : (applyOp tr im op).height = im.height := by
  cases op <;> rfl

/-- Folding any sequence of drawing operations preserves the canvas width. -/
theorem foldl_applyOp_width (tr : String → Color → Int → Int → Option Color)
    (ops : List DrawOp) :
    ∀ im : Img, (ops.foldl (applyOp tr) im).width = im.width := by
  induction ops with
  | nil => intro im; rfl
  | cons op rest ih =>
    intro im
    rw [List.foldl_cons, ih (applyOp tr im op), applyOp_width]

/-- Folding any sequence of drawing operations preserves the canvas height. -/
theorem foldl_applyOp_height (tr : String → Color → Int → Int → Option Color)
    (ops : List DrawOp) :
    ∀ im : Img, (ops.foldl (applyOp tr) im).height = im.height := by
  induction ops with
  | nil => intro im; rfl
  | cons op rest ih =>
    intro im
    rw [List.foldl_cons, ih (applyOp tr im op), applyOp_height]

/-- The texts of a list of text operations built by `map` are the mapped
strings. -/
theorem opTexts_map_text {α : Type} (l : List α) (fdx fdy : α → Int)
    (fstr : α → String) (c : Color) :
    opTexts (l.map (fun p => DrawOp.text (fdx p) (fdy p) (fstr p) c)) =
      l.map fstr := by
  induction l with
  | nil => rfl
  | cons a t ih => simp [opTexts, ih]

/-- A pair drawn from `enumFrom` has its second component in the list. -/
theorem snd_mem_of_mem_enumFrom {α : Type} :
    ∀ (l : List α) (k : Nat) (p : Nat × α), p ∈ List.enumFrom k l → p.2 ∈ l := by
  intro l
  induction l with
  | nil => intro k p hp; simp [List.enumFrom] at hp
  | cons a t ih =>
    intro k p hp
    simp only [List.enumFrom, List.mem_cons] at hp
    rcases hp with h | h
    · subst h; exact List.mem_cons_self a t
    · exact List.mem_cons_of_mem a (ih (k + 1) p h)

/-- Invariant of the word-wrap fold: every committed line was either
measured within the box width when it was accepted, or is a single word of
the input, or is the initial empty line. -/
theorem wrapFold_invariant (mw : String → Int) (w : Int)
    (allWords : List String) :
    ∀ (ws : List String), (∀ x ∈ ws, x ∈ allWords) →
    ∀ (acc : List String × String),
      (∀ l ∈ acc.1, mw l ≤ w ∨ l ∈ allWords ∨ l = "") →
      (mw acc.2 ≤ w ∨ acc.2 ∈ allWords ∨ acc.2 = "") →
      (∀ l ∈ (ws.foldl (wrapStep mw w) acc).1,
          mw l ≤ w ∨ l ∈ allWords ∨ l = "") ∧
      (mw (ws.foldl (wrapStep mw w) acc).2 ≤ w ∨
          (ws.foldl (wrapStep mw w) acc).2 ∈ allWords ∨
          (ws.foldl (wrapStep mw w) acc).2 = "") := by
  intro ws
  induction ws with
  | nil => intro _ acc h1 h2; exact ⟨h1, h2⟩
  | cons wrd rest ih =>
    intro hmem acc h1 h2
    rw [List.foldl_cons]
    by_cases hc : mw (pyStrip (acc.2 ++ " " ++ wrd)) ≤ w
    · have hstep : wrapStep mw w acc wrd =
          (acc.1, pyStrip (acc.2 ++ " " ++ wrd)) := by
        simp [wrapStep, hc]
      rw [hstep]
      refine ih (fun x hx => hmem x (List.mem_cons_of_mem wrd hx))
        (acc.1, pyStrip (acc.2 ++ " " ++ wrd)) ?_ ?_
      · exact h1
      · exact Or.inl hc
    · have hstep : wrapStep mw w acc wrd = (acc.1 ++ [acc.2], wrd) := by
        simp [wrapStep, hc]
      rw [hstep]
      refine ih (fun x hx => hmem x (List.mem_cons_of_mem wrd hx))
        (acc.1 ++ [acc.2], wrd) ?_ ?_
      · intro l hl
        rcases List.mem_append.mp hl with h | h
        · exact h1 l h
        · rcases List.mem_singleton.mp h with rfl
          exact h2
      · exact Or.inr (Or.inl (hmem wrd (List.mem_cons_self wrd rest)))

/-- Every line produced by the word wrap is measured within the box width,
or is one of the split words, or is the empty string. -/
theorem wrapLines_mem (mw : String → Int) (text : String) (w : Int) :
    ∀ l ∈ wrapLines mw text w,
      mw l ≤ w ∨ l ∈ pySplit ' ' text ∨ l = "" := by
  intro l hl
  unfold wrapLines at hl
  have hinv := wrapFold_invariant mw w (pySplit ' ' text) (pySplit ' ' text)
    (fun x hx => hx) (([] : List String), "")
    (by intro x hx; simp at hx)
    (Or.inr (Or.inr rfl))
  rcases List.mem_append.mp hl with h | h
  · exact hinv.1 l h
  · rcases List.mem_singleton.mp h with rfl
    exact hinv.2

/-- `renderOps` distributes over concatenation of the fields table. -/
theorem renderOps_append (mw mh : String → Int) (fs : FileSystem)
    (isz : Int × Int) (l1 l2 : List (String × Box))
    (cd : List (String × PyVal)) (pp : Option String) :
    renderOps mw mh fs ⟨isz, l1 ++ l2⟩ cd pp =
      renderOps mw mh fs ⟨isz, l1⟩ cd pp ++
        renderOps mw mh fs ⟨isz, l2⟩ cd pp := by
  unfold renderOps
  induction l1 with
  | nil => simp
  | cons nb t ih => simp [List.foldr_cons, ih, List.append_assoc]

/-- Counting the elements of `enumFrom k l` whose index `i` satisfies
`i + 1 < m`. -/
theorem length_filter_enumFrom_succ_lt {α : Type} :
    ∀ (l : List α) (k m : Nat),
      ((List.enumFrom k l).filter (fun p => decide (p.1 + 1 < m))).length =
        min (m - 1 - k) l.length := by
  intro l
  induction l with
  | nil => intro k m; simp
  | cons a t ih =>
    intro k m
    simp only [List.enumFrom]
    by_cases h : k + 1 < m
    · rw [List.filter_cons_of_pos (by simpa using h)]
      simp only [List.length_cons, ih (k + 1) m]
      omega
    · rw [List.filter_cons_of_neg (by simpa using h)]
      simp only [List.length_cons, ih (k + 1) m]
      omega

/-! ## Claim theorems -/

/-- Claim C1 (confirmed): for every template, mapping, candidate record,
serial number, name and photo path, `fill_and_save_pdf` raises `NameError`
— `BytesIO` is neither imported by `ImageFormFiller.py` nor a builtin — so
the call terminates with that exception after rendering the fields and
before any PDF file is written to the output folder. -/
theorem c1_fill_and_save_pdf_raises_name_error
    (tr : String → Color → Int → Int → Option Color) (mw mh : String → Int)
    (fs : FileSystem) (f : ImageFormFiller) (outputFolder : String)
    (cd : List (String × PyVal)) (srno nm : String) (pp : Option String) :
    importedNames.contains "BytesIO" = false ∧
    builtinNames.contains "BytesIO" = false ∧
    (fillAndSavePdf tr mw mh fs f outputFolder cd srno nm pp).2.outcome =
      Except.error (PyErr.nameError "BytesIO") ∧
    (fillAndSavePdf tr mw mh fs f outputFolder cd srno nm pp).2.events =
      [PdfEvent.renderedFields] ∧
    (fillAndSavePdf tr mw mh fs f outputFolder cd srno nm pp).2.rendered =
      renderImage tr mw mh fs f cd pp := by
  have hres : nameResolves "BytesIO" = false := by decide
  refine ⟨by decide, by decide, ?_, ?_, ?_⟩ <;>
    simp [fillAndSavePdf, hres]

/-- Claim C8 (confirmed): with an empty `fields` table the rendered output
image is pixel-identical to the template. -/
theorem c8_empty_fields_identity
    (tr : String → Color → Int → Int → Option Color) (mw mh : String → Int)
    (fs : FileSystem) (t : Img) (m : Mapping) (fp : Option String)
    (fsz : Int) (cd : List (String × PyVal)) (pp : Option String)
    (hemp : m.fields = []) :
    renderImage tr mw mh fs (mkImageFormFiller t m fp fsz) cd pp = t := by
  simp [renderImage, renderOps, mkImageFormFiller, hemp, Img.copy]

/-- Witness for C8 at a concrete template, record and photo path. -/
theorem c8_empty_fields_identity_witness :
    emptyMapping.fields = [] ∧
    renderImage trNone mwLen mhTen emptyFs
      (mkImageFormFiller imgSmall emptyMapping Option.none 12)
      [("Name", PyVal.str "Anita")] Option.none = imgSmall :=
  ⟨rfl, c8_empty_fields_identity trNone mwLen mhTen emptyFs imgSmall
    emptyMapping Option.none 12 [("Name", PyVal.str "Anita")] Option.none rfl⟩

/-- Claim C9 (confirmed): a render call leaves the filler object — in
particular its template image — unchanged, and the filled output image has
exactly the template's pixel dimensions. -/
theorem c9_template_not_mutated_dims
    (tr : String → Color → Int → Int → Option Color) (mw mh : String → Int)
    (fs : FileSystem) (f : ImageFormFiller) (outputFolder : String)
    (cd : List (String × PyVal)) (srno nm : String) (pp : Option String) :
    (fillAndSavePdf tr mw mh fs f outputFolder cd srno nm pp).1 = f ∧
    (fillAndSavePdf tr mw mh fs f outputFolder cd srno nm pp).2.rendered.width =
      f.template_image.width ∧
    (fillAndSavePdf tr mw mh fs f outputFolder cd srno nm pp).2.rendered.height =
      f.template_image.height := by
  have hres : nameResolves "BytesIO" = false := by decide
  refine ⟨?_, ?_, ?_⟩
  · simp [fillAndSavePdf, hres]
  · simp only [fillAndSavePdf, hres, Bool.false_eq_true, if_false]
    exact foldl_applyOp_width tr _ f.template_image.copy
  · simp only [fillAndSavePdf, hres, Bool.false_eq_true, if_false]
    exact foldl_applyOp_height tr _ f.template_image.copy

/-- Claim C10 (confirmed): in native-DPI mode at the hardcoded 300 DPI the
page measures `(width/300)*72` by `(height/300)*72` points, the filled
image is drawn at `(0,0)` with exactly the page's size (no letterboxing),
the page aspect ratio equals the image aspect ratio, and a 2480×3508 px
template yields a 595.2 × 841.92 pt page (≈ 595.2 × 841.9). -/
theorem c10_native_dpi_page_geometry :
    (∀ (t : Img) (m : Mapping) (fp : Option String) (fsz : Int),
      (emitPage (mkImageFormFiller t m fp fsz)).pageW =
          ((t.width : ℚ) / 300) * 72 ∧
      (emitPage (mkImageFormFiller t m fp fsz)).pageH =
          ((t.height : ℚ) / 300) * 72 ∧
      (emitPage (mkImageFormFiller t m fp fsz)).drawX = 0 ∧
      (emitPage (mkImageFormFiller t m fp fsz)).drawY = 0 ∧
      (emitPage (mkImageFormFiller t m fp fsz)).drawW =
          (emitPage (mkImageFormFiller t m fp fsz)).pageW ∧
      (emitPage (mkImageFormFiller t m fp fsz)).drawH =
          (emitPage (mkImageFormFiller t m fp fsz)).pageH ∧
      (emitPage (mkImageFormFiller t m fp fsz)).pageW * (t.height : ℚ) =
          (emitPage (mkImageFormFiller t m fp fsz)).pageH * (t.width : ℚ)) ∧
    (emitPage (mkImageFormFiller imgA4Scan emptyMapping Option.none 12)).pageW
        = 2976 / 5 ∧
    (emitPage (mkImageFormFiller imgA4Scan emptyMapping Option.none 12)).pageH
        = 21048 / 25 ∧
    |(emitPage (mkImageFormFiller imgA4Scan emptyMapping Option.none 12)).pageW
        - 5952 / 10| ≤ 1 / 10 ∧
    |(emitPage (mkImageFormFiller imgA4Scan emptyMapping Option.none 12)).pageH
        - 8419 / 10| ≤ 1 / 10 := by
  refine ⟨?_, ?_, ?_, ?_, ?_⟩
  · intro t m fp fsz
    refine ⟨rfl, rfl, rfl, rfl, rfl, rfl, ?_⟩
    simp only [emitPage, mkImageFormFiller, inchPts]
    ring
  · norm_num [emitPage, mkImageFormFiller, inchPts, imgA4Scan]
  · norm_num [emitPage, mkImageFormFiller, inchPts, imgA4Scan]
  · norm_num [emitPage, mkImageFormFiller, inchPts, imgA4Scan, abs_le]
  · norm_num [emitPage, mkImageFormFiller, inchPts, imgA4Scan, abs_le]

/-- Claim C2 counterexample: a field named `dob` with raw value
`"2024-03-05"` is drawn verbatim, not as `"05/03/2024"`, and a `None`
value draws the text `"None"` instead of nothing — there is no date
handling in the renderer. -/
theorem c2_date_counterexample :
    opTexts (processField mwLen mhTen emptyFs Option.none
        [("dob", PyVal.str "2024-03-05")] "dob" ⟨10, 20, 300, 40⟩) =
      ["2024-03-05"] ∧
    ("2024-03-05" : String) ≠ "05/03/2024" ∧
    opTexts (processField mwLen mhTen emptyFs Option.none
        [("dob", PyVal.noneV)] "dob" ⟨10, 20, 300, 40⟩) = ["None"] ∧
    ("None" : String) ≠ "" := by
  refine ⟨by decide, by decide, by decide, by decide⟩

/-- Claim C2 amended: fields whose names match date-like patterns get no
special treatment — the raw record value is drawn verbatim through the
ordinary text path (so `"2024-03-05"` under a `dob`-named field is drawn
as `"2024-03-05"`), and only an empty raw string draws nothing. -/
theorem c2_date_amended (mw mh : String → Int) (fs : FileSystem)
    (pp : Option String) (nm v : String) (b : Box)
    (hname : pyLower nm ≠ "photo") :
    (v ≠ "" → mw v ≤ b.w →
      opTexts (processField mw mh fs pp [(nm, PyVal.str v)] nm b) = [v]) ∧
    opTexts (processField mw mh fs pp [(nm, PyVal.str "")] nm b) = [] := by
  have hbeq : (pyLower nm == "photo") = false :=
    beq_eq_false_iff_ne.mpr hname
  constructor
  · intro hv hfit
    have hnotwide : ¬ (mw v > b.w) := not_lt.mpr hfit
    simp [processField, hbeq, lookupValue, pyStr, hv, drawTextOnImage,
      hnotwide, opTexts]
  · simp [processField, hbeq, lookupValue, pyStr, opTexts]

/-- Witness for the amended C2 at the spec's own example value. -/
theorem c2_date_amended_witness :
    (pyLower "dob" ≠ "photo" ∧ ("2024-03-05" : String) ≠ "" ∧
      mwLen "2024-03-05" ≤ Box.w ⟨10, 20, 300, 40⟩) ∧
    opTexts (processField mwLen mhTen emptyFs Option.none
        [("dob", PyVal.str "2024-03-05")] "dob" ⟨10, 20, 300, 40⟩) =
      ["2024-03-05"] ∧
    opTexts (processField mwLen mhTen emptyFs Option.none
        [("dob", PyVal.str "")] "dob" ⟨10, 20, 300, 40⟩) = [] :=
  ⟨⟨by decide, by decide, by decide⟩,
    (c2_date_amended mwLen mhTen emptyFs Option.none "dob" "2024-03-05"
      ⟨10, 20, 300, 40⟩ (by decide)).1 (by decide) (by decide),
    (c2_date_amended mwLen mhTen emptyFs Option.none "dob" "2024-03-05"
      ⟨10, 20, 300, 40⟩ (by decide)).2⟩

/-- Claim C3 counterexample: with the photo path absent, a field named
`photo` is NOT silently skipped — it falls through to the text branch, and
a record key matching `photo` gets its value drawn inside the photo box. -/
theorem c3_photo_counterexample :
    opTexts (processField mwLen mhTen emptyFs Option.none
        [("photo", PyVal.str "X")] "photo" ⟨0, 0, 50, 60⟩) = ["X"] ∧
    (["X"] : List String) ≠ [] := by
  refine ⟨by decide, by decide⟩

/-- Claim C3 amended: for a field whose lowercased name is exactly
`photo`, with a non-empty photo path that exists, any failure while
opening or resizing the photo silently skips the field — no operation, no
exception — and every other field of the mapping still renders exactly as
it would alone.  (When the photo path is absent, empty or non-existent the
field is instead processed as a text field.) -/
theorem c3_photo_amended (mw mh : String → Int) (fs : FileSystem)
    (cd : List (String × PyVal)) (p : String) (b : Box) (fieldName : String)
    (isz : Int × Int) (bef aft : List (String × Box))
    (hname : pyLower fieldName = "photo") (hp : p ≠ "")
    (hex : fs.pathExists p = true)
    (hload : fs.loadResized p b.w b.h = Option.none) :
    processField mw mh fs (some p) cd fieldName b = [] ∧
    renderOps mw mh fs ⟨isz, bef ++ (fieldName, b) :: aft⟩ cd (some p) =
      renderOps mw mh fs ⟨isz, bef⟩ cd (some p) ++
        renderOps mw mh fs ⟨isz, aft⟩ cd (some p) := by
  have hbeq : (pyLower fieldName == "photo") = true := beq_iff_eq.mpr hname
  have hpb : (p != "") = true := bne_iff_ne.mpr hp
  have hskip : processField mw mh fs (some p) cd fieldName b = [] := by
    simp [processField, hbeq, photoGuard, hpb, hex, hload]
  refine ⟨hskip, ?_⟩
  rw [renderOps_append]
  have hcons : renderOps mw mh fs ⟨isz, (fieldName, b) :: aft⟩ cd (some p) =
      processField mw mh fs (some p) cd fieldName b ++
        renderOps mw mh fs ⟨isz, aft⟩ cd (some p) := rfl
  rw [hcons, hskip, List.nil_append]

/-- Witness for the amended C3: a corrupt photo file that exists but fails
to load, next to an ordinary text field. -/
theorem c3_photo_amended_witness :
    (pyLower "Photo" = "photo" ∧ ("p.jpg" : String) ≠ "" ∧
      failFs.pathExists "p.jpg" = true ∧
      failFs.loadResized "p.jpg" 50 60 = Option.none) ∧
    processField mwLen mhTen failFs (some "p.jpg")
      [("name", PyVal.str "A")] "Photo" ⟨0, 0, 50, 60⟩ = [] ∧
    renderOps mwLen mhTen failFs
        ⟨(100, 100), [("Name", ⟨0, 0, 300, 40⟩)] ++
          ("Photo", ⟨0, 0, 50, 60⟩) :: []⟩
        [("name", PyVal.str "A")] (some "p.jpg") =
      renderOps mwLen mhTen failFs ⟨(100, 100), [("Name", ⟨0, 0, 300, 40⟩)]⟩
          [("name", PyVal.str "A")] (some "p.jpg") ++
        renderOps mwLen mhTen failFs ⟨(100, 100), []⟩
          [("name", PyVal.str "A")] (some "p.jpg") :=
  ⟨⟨by decide, by decide, rfl, rfl⟩,
    c3_photo_amended mwLen mhTen failFs [("name", PyVal.str "A")] "p.jpg"
      ⟨0, 0, 50, 60⟩ "Photo" (100, 100) [("Name", ⟨0, 0, 300, 40⟩)] []
      (by decide) (by decide) rfl rfl⟩

/-- Claim C4 counterexample: the claimed normalisation includes a trim, but
the code's does not — the keys `"Name "` and `"Name"` normalise equal under
the claimed `lower ∘ replace ∘ trim`, yet the lookup finds nothing and the
field draws nothing. -/
theorem c4_lookup_counterexample :
    specNormalize "Name " = specNormalize "Name" ∧
    lookupValue [("Name ", PyVal.str "X")] "Name" = Option.none ∧
    opTexts (processField mwLen mhTen emptyFs Option.none
        [("Name ", PyVal.str "X")] "Name" ⟨0, 0, 300, 40⟩) = [] := by
  refine ⟨by decide, by decide, by decide⟩

/-- Claim C4 amended: the value is resolved by a case-insensitive,
underscore-to-space-normalised lookup with NO trimming
(`normalize(name) = lower(name).replace('_',' ')`); the first record key
in iteration order whose normalisation matches wins, and if no key matches
the field is skipped with nothing drawn and no error. -/
theorem c4_lookup_amended (mw mh : String → Int) (fs : FileSystem)
    (pp : Option String) (cd : List (String × PyVal)) (fieldName : String)
    (b : Box) (hname : pyLower fieldName ≠ "photo") :
    lookupValue cd fieldName =
      (cd.find? (fun kv => normKey kv.1 == normKey fieldName)).map
        (fun kv => pyStr kv.2) ∧
    (lookupValue cd fieldName = Option.none →
      processField mw mh fs pp cd fieldName b = []) := by
  constructor
  · induction cd with
    | nil => rfl
    | cons kv rest ih =>
      by_cases h : normKey kv.1 = normKey fieldName
      · rw [List.find?_cons_of_pos rest (by simpa using h)]
        simp [lookupValue, h]
      · rw [List.find?_cons_of_neg rest (by simpa using h)]
        simpa [lookupValue, h] using ih
  · intro hnone
    have hbeq : (pyLower fieldName == "photo") = false :=
      beq_eq_false_iff_ne.mpr hname
    simp [processField, hbeq, hnone]

/-- Witness for the amended C4: a record with no matching key for the
field `Address` draws nothing. -/
theorem c4_lookup_amended_witness :
    (pyLower "Address" ≠ "photo" ∧
      lookupValue [("PIN", PyVal.str "5")] "Address" = Option.none) ∧
    lookupValue [("PIN", PyVal.str "5")] "Address" =
      (([("PIN", PyVal.str "5")].find?
          (fun kv => normKey kv.1 == normKey "Address")).map
        (fun kv => pyStr kv.2)) ∧
    processField mwLen mhTen emptyFs Option.none [("PIN", PyVal.str "5")]
      "Address" ⟨0, 0, 10, 10⟩ = [] :=
  ⟨⟨by decide, by decide⟩,
    (c4_lookup_amended mwLen mhTen emptyFs Option.none
      [("PIN", PyVal.str "5")] "Address" ⟨0, 0, 10, 10⟩ (by decide)).1,
    (c4_lookup_amended mwLen mhTen emptyFs Option.none
      [("PIN", PyVal.str "5")] "Address" ⟨0, 0, 10, 10⟩ (by decide)).2
      (by decide)⟩

/-- Claim C5 (confirmed): when the measured single-line width exceeds the
box width, the greedy word wrap never draws a line whose measured width
exceeds the box width, except a line that is a single word of the
space-split input (such a word is placed alone, never split or
hyphenated). -/
theorem c5_wrap_width_bound (mw mh : String → Int) (text : String)
    (x y w h : Int) (hempty : mw "" ≤ w) (hwide : mw text > w) :
    wrapWidthOk mw w (pySplit ' ' text)
      (opTexts (drawTextOnImage mw mh text x y w h)) := by
  intro s hs
  have hd : drawTextOnImage mw mh text x y w h =
      ((wrapLines mw text w).enum.filter
          (fun p => decide (y + pyFloorDiv
              (h - ((wrapLines mw text w).length : Int) * mh text) 2 +
            (p.1 : Int) * mh text + mh text ≤ y + h))).map
        (fun p => DrawOp.text (x + pyFloorDiv (w - mw p.2) 2)
          (y + pyFloorDiv
              (h - ((wrapLines mw text w).length : Int) * mh text) 2 +
            (p.1 : Int) * mh text) p.2 blackColor) := by
    simp only [drawTextOnImage]
    rw [if_pos hwide]
  rw [hd, opTexts_map_text] at hs
  obtain ⟨p, hp, rfl⟩ := List.mem_map.mp hs
  have hpe : p ∈ (wrapLines mw text w).enum := List.mem_of_mem_filter hp
  have hmem : p.2 ∈ wrapLines mw text w :=
    snd_mem_of_mem_enumFrom (wrapLines mw text w) 0 p hpe
  rcases wrapLines_mem mw text w p.2 hmem with hle | hwd | hnil
  · exact Or.inl hle
  · exact Or.inr hwd
  · rw [hnil]
    exact Or.inl hempty

/-- Witness for C5 on a concrete overflowing value in a fixed-pitch font. -/
theorem c5_wrap_width_bound_witness :
    (mwLen "" ≤ 3 ∧ mwLen "aa bb" > 3) ∧
    wrapWidthOk mwLen 3 (pySplit ' ' "aa bb")
      (opTexts (drawTextOnImage mwLen mhTen "aa bb" 0 0 3 19)) :=
  ⟨⟨by decide, by decide⟩,
    c5_wrap_width_bound mwLen mhTen "aa bb" 0 0 3 19 (by decide) (by decide)⟩

/-- Claim C7 (confirmed): a value fitting on one line is drawn as a single
line at `x + (w - textWidth)//2`, `y + (h - textHeight)//2` — within one
pixel of exact centering — and the horizontal position does not depend on
the box height. -/
theorem c7_single_line_centering (mw mh : String → Int) (text : String)
    (x y w h : Int) (hfit : mw text ≤ w) :
    drawTextOnImage mw mh text x y w h =
      [DrawOp.text (x + pyFloorDiv (w - mw text) 2)
        (y + pyFloorDiv (h - mh text) 2) text blackColor] ∧
    xsOfBoxHeight mw mh text x y w =
      constIntListFun [x + pyFloorDiv (w - mw text) 2] ∧
    0 ≤ (w - mw text) - 2 * pyFloorDiv (w - mw text) 2 ∧
    (w - mw text) - 2 * pyFloorDiv (w - mw text) 2 ≤ 1 ∧
    0 ≤ (h - mh text) - 2 * pyFloorDiv (h - mh text) 2 ∧
    (h - mh text) - 2 * pyFloorDiv (h - mh text) 2 ≤ 1 := by
  have hnot : ¬ (mw text > w) := not_lt.mpr hfit
  have hsingle : ∀ hh : Int, drawTextOnImage mw mh text x y w hh =
      [DrawOp.text (x + pyFloorDiv (w - mw text) 2)
        (y + pyFloorDiv (hh - mh text) 2) text blackColor] := by
    intro hh
    simp only [drawTextOnImage]
    rw [if_neg hnot]
  refine ⟨hsingle h, ?_, (pyFloorDiv_two_bounds _).1,
    (pyFloorDiv_two_bounds _).2, (pyFloorDiv_two_bounds _).1,
    (pyFloorDiv_two_bounds _).2⟩
  funext hh
  simp [xsOfBoxHeight, constIntListFun, hsingle hh, opXs]

/-- Witness for C7 at a concrete fitting value. -/
theorem c7_single_line_centering_witness :
    mwLen "hi" ≤ 10 ∧
    (drawTextOnImage mwLen mhTen "hi" 5 7 10 20 =
        [DrawOp.text (5 + pyFloorDiv (10 - mwLen "hi") 2)
          (7 + pyFloorDiv (20 - mhTen "hi") 2) "hi" blackColor] ∧
      xsOfBoxHeight mwLen mhTen "hi" 5 7 10 =
        constIntListFun [5 + pyFloorDiv (10 - mwLen "hi") 2] ∧
      0 ≤ (10 - mwLen "hi") - 2 * pyFloorDiv (10 - mwLen "hi") 2 ∧
      (10 - mwLen "hi") - 2 * pyFloorDiv (10 - mwLen "hi") 2 ≤ 1 ∧
      0 ≤ (20 - mhTen "hi") - 2 * pyFloorDiv (20 - mhTen "hi") 2 ∧
      (20 - mhTen "hi") - 2 * pyFloorDiv (20 - mhTen "hi") 2 ≤ 1) :=
  ⟨by decide, c7_single_line_centering mwLen mhTen "hi" 5 7 10 20 (by decide)⟩

/-- In the wrapped branch, `_draw_text_on_image` is the bottom-edge filter
over the enumerated wrap lines, mapped to centered text draws. -/
theorem drawTextOnImage_wrap_eq (mw mh : String → Int) (text : String)
    (x y w h : Int) (hwide : mw text > w) :
    drawTextOnImage mw mh text x y w h =
      ((wrapLines mw text w).enum.filter
          (fun p => decide (y + pyFloorDiv
              (h - ((wrapLines mw text w).length : Int) * mh text) 2 +
            (p.1 : Int) * mh text + mh text ≤ y + h))).map
        (fun p => DrawOp.text (x + pyFloorDiv (w - mw p.2) 2)
          (y + pyFloorDiv
              (h - ((wrapLines mw text w).length : Int) * mh text) 2 +
            (p.1 : Int) * mh text) p.2 blackColor) := by
  simp only [drawTextOnImage]
  rw [if_pos hwide]

/-- When the block of `N` wrapped lines is centered with
`q = (h - N*lh) // 2` and the box height satisfies
`(N-1)*lh ≤ h ≤ N*lh - 2`, the bottom-edge filter keeps exactly the first
`N - 1` lines. -/
theorem enum_filter_bottom_edge_count (L : List String) (y h lh q : Int)
    (hq1 : 0 ≤ h - (L.length : Int) * lh - 2 * q)
    (hq2 : h - (L.length : Int) * lh - 2 * q ≤ 1)
    (hlh : 0 < lh) (hA : ((L.length : Int) - 1) * lh ≤ h)
    (hB : h ≤ (L.length : Int) * lh - 2) :
    (L.enum.filter
        (fun p => decide (y + q + (p.1 : Int) * lh + lh ≤ y + h))).length =
      L.length - 1 := by
  have hiff : ∀ i : Nat,
      (y + q + (i : Int) * lh + lh ≤ y + h) ↔ (i + 1 < L.length) := by
    intro i
    have hNi : ((i : Int) + 1) * lh = (i : Int) * lh + lh := by ring
    constructor
    · intro hcond
      by_contra hge
      push_neg at hge
      have hcast : (L.length : Int) ≤ (i : Int) + 1 := by exact_mod_cast hge
      have hmul : (L.length : Int) * lh ≤ ((i : Int) + 1) * lh :=
        mul_le_mul_of_nonneg_right hcast (le_of_lt hlh)
      linarith
    · intro hlt
      have hcast : (i : Int) + 2 ≤ (L.length : Int) := by exact_mod_cast hlt
      have hmul : ((i : Int) + 1) * lh ≤ ((L.length : Int) - 1) * lh :=
        mul_le_mul_of_nonneg_right (by linarith) (le_of_lt hlh)
      have hexp2 : ((L.length : Int) - 1) * lh = (L.length : Int) * lh - lh := by
        ring
      linarith
  have hfun : (fun p : Nat × String =>
        decide (y + q + (p.1 : Int) * lh + lh ≤ y + h)) =
      (fun p : Nat × String => decide (p.1 + 1 < L.length)) := by
    funext p
    exact decide_eq_decide.mpr (hiff p.1)
  rw [hfun, show L.enum = List.enumFrom 0 L from rfl,
    length_filter_enumFrom_succ_lt L 0 L.length]
  omega

/-- Claim C6 counterexample: `"aa bb"` wraps to 2 lines of height 10 in a
box of height 19, which fits only one line (`10 ≤ 19 < 2*10`); the claim
predicts exactly 1 drawn line, but the code draws both (the centered block
start `(19 - 20) // 2 = -1` lets the second line's bottom edge land exactly
on the box bottom). -/
theorem c6_overflow_counterexample :
    (wrapLines mwLen "aa bb" 3).length = 2 ∧
    (1 : Int) * 10 ≤ 19 ∧ (19 : Int) < 2 * 10 ∧
    (drawnLineTexts mwLen mhTen "aa bb" 0 0 3 19).length = 2 := by
  refine ⟨by decide, by decide, by decide, by decide⟩

/-- Claim C6 amended: in the wrapped branch a line with index `i` is drawn
iff its bottom edge `start_y + i*line_height + line_height` is `≤ y + h`
(no error, no truncation marker for dropped lines); however, a value
wrapping to `N` lines in a box with `(N-1)*lineHeight ≤ h` yields exactly
`N-1` drawn lines only when additionally `h ≤ N*lineHeight - 2` — in the
boundary case `h = N*lineHeight - 1` all `N` lines are drawn, the block
starting one pixel above the box. -/
theorem c6_overflow_amended (mw mh : String → Int) (text : String)
    (x y w h : Int) :
    (mw text > w →
      drawnLineTexts mw mh text x y w h = drawnLinesSpec mw mh text w y h) ∧
    (mw text > w → 0 < mh text →
      (((wrapLines mw text w).length : Int) - 1) * mh text ≤ h →
      h ≤ ((wrapLines mw text w).length : Int) * mh text - 2 →
      (drawnLineTexts mw mh text x y w h).length =
        (wrapLines mw text w).length - 1) := by
  constructor
  · intro hwide
    rw [drawnLineTexts, drawTextOnImage_wrap_eq mw mh text x y w h hwide,
      opTexts_map_text]
    simp only [drawnLinesSpec]
  · intro hwide hlh hA hB
    rw [drawnLineTexts, drawTextOnImage_wrap_eq mw mh text x y w h hwide,
      opTexts_map_text, List.length_map]
    obtain ⟨hq1, hq2⟩ := pyFloorDiv_two_bounds
      (h - ((wrapLines mw text w).length : Int) * mh text)
    exact enum_filter_bottom_edge_count (wrapLines mw text w) y h (mh text)
      (pyFloorDiv (h - ((wrapLines mw text w).length : Int) * mh text) 2)
      (by linarith) (by linarith) hlh hA hB

/-- Witness for the amended C6: 2 lines of height 10 in a box of height 15
draw exactly one line. -/
theorem c6_overflow_amended_witness :
    (mwLen "aa bb" > 3 ∧ 0 < mhTen "aa bb" ∧
      (((wrapLines mwLen "aa bb" 3).length : Int) - 1) * mhTen "aa bb" ≤ 15 ∧
      (15 : Int) ≤ ((wrapLines mwLen "aa bb" 3).length : Int) *
        mhTen "aa bb" - 2) ∧
    drawnLineTexts mwLen mhTen "aa bb" 0 0 3 15 =
      drawnLinesSpec mwLen mhTen "aa bb" 3 0 15 ∧
    (drawnLineTexts mwLen mhTen "aa bb" 0 0 3 15).length =
      (wrapLines mwLen "aa bb" 3).length - 1 :=
  ⟨⟨by decide, by decide, by decide, by decide⟩,
    (c6_overflow_amended mwLen mhTen "aa bb" 0 0 3 15).1 (by decide),
    (c6_overflow_amended mwLen mhTen "aa bb" 0 0 3 15).2 (by decide)
      (by decide) (by decide) (by decide)⟩
